import Mathlib

/-!
Verification development for the hopmetrics beer-menu scraping pipeline
(`scraper.py` and `app.py`).  The Python source is shallowly embedded:
pure parsing helpers become Lean functions over `List Char` / `String`,
Python floats are modelled by `ℚ` (the source performs no rounding of its
own), SQLite state becomes an explicit record of table rows, network
fetches become `Except Unit` values (`.error ()` standing for a raised
transport exception), and every `try/except` handler is reflected by a
total function returning the handler's sentinel value.
-/

deriving instance DecidableEq for Except

/-! ### Python character classes and primitive string operations -/

/-- ASCII whitespace recognised by Python's `\s` class and `str.strip`. -/
def pyWs (c : Char) : Bool :=
  c = ' ' || c = '\t' || c = '\n' || c = '\r' || c = '\x0b' || c = '\x0c'

/-- The character class `[a-zA-Z]` of the generic name regex. -/
def asciiAlpha (c : Char) : Bool :=
  ('a' ≤ c && c ≤ 'z') || ('A' ≤ c && c ≤ 'Z')

/-- The character class `[\d.]` used by every numeric capture group. -/
def isDigitDot (c : Char) : Bool := c.isDigit || c = '.'

/-- Python `str.strip()`: drop leading and trailing whitespace. -/
def pyStrip (l : List Char) : List Char :=
  ((l.dropWhile pyWs).reverse.dropWhile pyWs).reverse

/-- Python `needle in hay` substring test. -/
def pyIn (needle : List Char) : List Char → Bool
  | [] => needle.isEmpty
  | c :: t => needle.isPrefixOf (c :: t) || pyIn needle t

/-- Python `needle in hay` on `String`. -/
def pyInS (needle hay : String) : Bool := pyIn needle.toList hay.toList

/-- Case-insensitive prefix test (for `re.IGNORECASE` suffix matching). -/
def ciPrefixOf (pre l : List Char) : Bool :=
  (pre.map Char.toLower).isPrefixOf (l.map Char.toLower)

/-- Fuel-driven worker for `replaceSub`; fuel is the input length, which
is always sufficient because each step consumes at least one character. -/
def replaceSubAux (needle repl : List Char) : Nat → List Char → List Char
  | _, [] => []
  | 0, l => l
  | fuel + 1, c :: t =>
    if needle.isPrefixOf (c :: t) && !needle.isEmpty then
      repl ++ replaceSubAux needle repl fuel (t.drop (needle.length - 1))
    else c :: replaceSubAux needle repl fuel t

/-- Python `str.replace(needle, repl)`: replace all non-overlapping
occurrences left to right. -/
def replaceSub (needle repl l : List Char) : List Char :=
  replaceSubAux needle repl l.length l

/-- Fuel-driven worker for `splitSub`. -/
def splitSubAux (sep : List Char) : Nat → List Char → List (List Char)
  | _, [] => [[]]
  | 0, l => [l]
  | fuel + 1, c :: t =>
    if sep.isPrefixOf (c :: t) && !sep.isEmpty then
      [] :: splitSubAux sep fuel (t.drop (sep.length - 1))
    else
      match splitSubAux sep fuel t with
      | [] => [[c]]
      | h :: r => (c :: h) :: r

/-- Python `str.split(sep)` for a non-empty separator: split on every
non-overlapping occurrence, left to right. -/
def splitSub (sep l : List Char) : List (List Char) :=
  splitSubAux sep l.length l

/-- Rebuild a `String` from its characters. -/
def strOf (l : List Char) : String := ⟨l⟩

/-- Python `str.strip()` on `String`. -/
def pyStripS (s : String) : String := strOf (pyStrip s.toList)

/-- Python `str.lower()` (ASCII model). -/
def lowerS (s : String) : String := strOf (s.toList.map Char.toLower)

/-- Python `str.lower()` on a character list. -/
def lowerL (l : List Char) : List Char := l.map Char.toLower

/-- Python `str.split(sep)` on `String`. -/
def pySplit (s sep : String) : List String :=
  (splitSub sep.toList s.toList).map strOf

/-! ### Python `float()` on a `[\d.]+` capture -/

/-- Digits of a capture folded into a natural number. -/
def digitsToNat (l : List Char) : Nat :=
  l.foldl (fun n c => 10 * n + (c.toNat - 48)) 0

/-- Python `float(s)` restricted to captures of `[\d.]+`: succeeds iff the
capture has at least one digit and at most one dot (otherwise the source
raises `ValueError`, which its `except` handler turns into a dropped
item), and yields the exact decimal value. -/
def pyFloat? (l : List Char) : Option ℚ :=
  if l.all isDigitDot && l.any Char.isDigit && decide (l.count '.' ≤ 1) then
    let ip := l.takeWhile (· != '.')
    let fp := (l.dropWhile (· != '.')).drop 1
    some (mkRat (digitsToNat ip * 10 ^ fp.length + digitsToNat fp) (10 ^ fp.length))
  else none

/-! ### The regex searches of `scraper.py`

Every numeric regex in the source has the shape `([\d.]+)` followed by a
context (`%`, `oz`, `ml`, possibly with `\s*`, or nothing) or preceded by
`\$`.  Because the context characters are never in `[\d.]`, `re.search`
on such a pattern returns the first maximal `[\d.]+` run whose immediate
context matches, and the capture is that whole run. -/

/-- Fuel-driven scan for the first maximal `[\d.]+` run whose following
text satisfies `after`; returns the captured run. -/
def searchRunThenAux (after : List Char → Bool) : Nat → List Char → Option (List Char)
  | _, [] => none
  | 0, _ => none
  | fuel + 1, c :: rest =>
    if isDigitDot c then
      let run := (c :: rest).takeWhile isDigitDot
      let tail := (c :: rest).dropWhile isDigitDot
      if after tail then some run else searchRunThenAux after fuel tail
    else searchRunThenAux after fuel rest

/-- `re.search` for `([\d.]+)⟨context⟩`: first maximal run with matching
right context. -/
def searchRunThen (after : List Char → Bool) (l : List Char) : Option (List Char) :=
  searchRunThenAux after l.length l

/-- `re.search(r'\$([\d.]+)', s)`: first `$` directly followed by at
least one `[\d.]` character; the capture is the maximal run after it. -/
def searchDollarNum : List Char → Option (List Char)
  | [] => none
  | c :: rest =>
    if c = '$' then
      let run := rest.takeWhile isDigitDot
      if run.isEmpty then searchDollarNum rest else some run
    else searchDollarNum rest

/-- Capture of `re.search(r'([\d.]+)%', s)`. -/
def searchPercent (l : List Char) : Option (List Char) :=
  searchRunThen (fun t => t.head? = some '%') l

/-- Capture of `re.search(r'([\d.]+)oz', s, re.IGNORECASE)`. -/
def searchOzCI (l : List Char) : Option (List Char) :=
  searchRunThen (ciPrefixOf ['o', 'z']) l

/-- Capture of `re.search(r'([\d.]+)ml', s, re.IGNORECASE)`. -/
def searchMlCI (l : List Char) : Option (List Char) :=
  searchRunThen (ciPrefixOf ['m', 'l']) l

/-- Capture of `re.search(r'([\d.]+)\s*oz', s)` (generic scraper; the
text is already lower-cased there). -/
def searchOzWs (l : List Char) : Option (List Char) :=
  searchRunThen (fun t => ['o', 'z'].isPrefixOf (t.dropWhile pyWs)) l

/-- Capture of `re.search(r'([\d.]+)\s*ml', s)`. -/
def searchMlWs (l : List Char) : Option (List Char) :=
  searchRunThen (fun t => ['m', 'l'].isPrefixOf (t.dropWhile pyWs)) l

/-- Capture of `re.search(r'([\d.]+)', s)` with no context (the
BeerAdvocate rating parse). -/
def searchNumAny (l : List Char) : Option (List Char) :=
  searchRunThen (fun _ => true) l

/-! ### Typed field extraction (Field Normalizer) -/

/-- The fixed milliliter-to-ounce factor `0.033814` of the source. -/
def mlFactor : ℚ := 33814 / 1000000

/-- Lift a float parse of a capture into the `try` monad: a failed
`float()` call is a raised `ValueError` (`.error ()`). -/
def floatCapture (cap : Option (List Char)) : Except Unit (Option ℚ) :=
  match cap with
  | none => .ok none
  | some run =>
    match pyFloat? run with
    | none => .error ()
    | some q => .ok (some q)

/-- ABV extraction `([\d.]+)%` + `float`, shared by the caption parser
(line 161) and the generic parser (line 321). -/
def extractAbvE (s : String) : Except Unit (Option ℚ) :=
  floatCapture (searchPercent s.toList)

/-- Price extraction `\$([\d.]+)` + `float`, shared by the BeerMenus
parser (line 177) and the generic parser (line 327). -/
def extractPriceE (s : String) : Except Unit (Option ℚ) :=
  floatCapture (searchDollarNum s.toList)

/-- Volume extraction of `parse_beermenus_item` (lines 182-189): `oz`
first, else `ml` converted by `mlFactor`, else undetermined. -/
def bmVolume (l : List Char) : Except Unit (Option ℚ) :=
  match searchOzCI l with
  | some run => floatCapture (some run)
  | none =>
    match searchMlCI l with
    | some run => (floatCapture (some run)).map (Option.map (· * mlFactor))
    | none => .ok none

/-- Volume extraction of `parse_generic_beer_info` (lines 309-317): the
substring gates `'oz' in text` / `elif 'ml' in text` come first; a run
may be separated from its unit by whitespace. -/
def gVolume (l : List Char) : Except Unit (Option ℚ) :=
  if pyIn ['o', 'z'] l then floatCapture (searchOzWs l)
  else if pyIn ['m', 'l'] l then
    (floatCapture (searchMlWs l)).map (Option.map (· * mlFactor))
  else .ok none

/-! ### Pipeline data model -/

/-- The dict produced per beer by both item parsers (`MenuItem` of the
spec).  `style` is `none` for the generic parser, whose dict has no
`style` key. -/
structure MenuItem where
  name : String
  volume_oz : Option ℚ
  abv : Option ℚ
  price : Option ℚ
  brewery : String
  style : Option String
deriving DecidableEq

/-- The establishment-metadata dict (`EstablishmentInfo`). -/
structure EstInfo where
  name : String
  location : String
  description : String
deriving DecidableEq

/-- One `<li class="pure-list-item">` fragment as read by
`parse_beermenus_item`: its class list, the `h3 > a` text if present,
the `p.caption.text-gray` text, and the right-column price caption. -/
structure BMItem where
  classes : List String
  nameText : Option String
  caption : Option String
  priceText : Option String
deriving DecidableEq

/-- A parsed document: the pieces of the BeautifulSoup tree the scraper
inspects.  `bmSections` and `gSections` map a CSS selector to the
fragments `soup.select(selector)` returns. -/
structure Soup where
  title : Option String
  h1 : Option String
  beerCounts : Option String
  metaDesc : Option String
  bmSections : List (String × List BMItem)
  gSections : List (String × List String)
deriving DecidableEq

/-- `soup.select(selector)` on the BeerMenus sections. -/
def bmSelect (soup : Soup) (sel : String) : List BMItem :=
  (soup.bmSections.lookup sel).getD []

/-- `soup.select(selector)` on the generic sections (fragments are
modelled by their text). -/
def gSelect (soup : Soup) (sel : String) : List String :=
  (soup.gSections.lookup sel).getD []

/-! ### Value Calculator (`calculate_value_score`, lines 18-27) -/

/-- Python truthiness of an optional float (`None`, `0` and `0.0` are
falsy), as used by `all([volume_oz, abv, price])`. -/
def pyTruthy (x : Option ℚ) : Bool :=
  match x with
  | none => false
  | some q => decide (q ≠ 0)

/-- `calculate_value_score`: alcohol per dollar, with the guard
`if not all([volume_oz, abv, price]) or price == 0: return 0`. -/
def calculate_value_score (volume_oz abv price : Option ℚ) : ℚ :=
  if !(pyTruthy volume_oz && pyTruthy abv && pyTruthy price) || decide (price = some 0) then 0
  else (volume_oz.getD 0) * ((abv.getD 0) / 100) / (price.getD 0)

/-! ### BeerMenus item parsing (`parse_beermenus_item`, lines 128-209) -/

/-- Caption-field assignment on the already-split-and-stripped parts
(lines 157-165): `style = parts[0]` and the ABV parse require at least
two parts, `brewery = parts[2]` requires at least three. -/
def parseCaptionParts (parts : List String) : Except Unit (String × Option ℚ × String) := do
  let style := if 2 ≤ parts.length then parts.getD 0 "" else ""
  let abv ← if 2 ≤ parts.length then extractAbvE (parts.getD 1 "") else .ok none
  let brewery := if 3 ≤ parts.length then parts.getD 2 "" else ""
  .ok (style, abv, brewery)

/-- Caption parsing of lines 155-165: strip, split on `·`, strip each
part, assign positionally. -/
def parseCaption (captionText : String) : Except Unit (String × Option ℚ × String) :=
  parseCaptionParts ((pySplit captionText "·").map pyStripS)

/-- Final volume of lines 182-196: parsed volume if determined,
otherwise 16.0 when the price caption mentions draft/tap service and
12.0 otherwise. -/
def bmVolumeFinal (ptext : List Char) : Except Unit ℚ :=
  match bmVolume ptext with
  | .error _ => .error ()
  | .ok (some v) => .ok v
  | .ok none =>
    .ok (if pyIn ("draft".toList) (lowerL ptext)
            || pyIn ("tap".toList) (lowerL ptext) then 16 else 12)

/-- `parse_beermenus_item`: `none` models both the missing-name early
return and the `except` handler (a raised `ValueError` from a `float`
call).  When the right column is absent, price is unknown and the
volume default is 12.0 (the draft test is guarded by `if price_elem`). -/
def parse_beermenus_item (it : BMItem) : Option MenuItem := do
  let nameText ← it.nameText
  let name := pyStripS nameText
  let sab ← (match it.caption with
    | none => some ("", (none : Option ℚ), "")
    | some cap =>
      match parseCaption (pyStripS cap) with
      | .error _ => none
      | .ok v => some v)
  let pv ← (match it.priceText with
    | none => some ((none : Option ℚ), (12 : ℚ))
    | some pt =>
      let ptext := pyStripS pt
      match extractPriceE ptext with
      | .error _ => none
      | .ok price =>
        match bmVolumeFinal ptext.toList with
        | .error _ => none
        | .ok vol => some (price, vol))
  some { name := name, volume_oz := some pv.2, abv := sab.2.1, price := pv.1,
         brewery := sab.2.2, style := some sab.1 }

/-! ### Generic item parsing (`parse_generic_beer_info`, lines 303-347) -/

/-- Characters admitted by the generic name regex `^([a-zA-Z\s]+)`. -/
def nameChar (c : Char) : Bool := asciiAlpha c || pyWs c

/-- Collapse a `try`-monad field parse into the enclosing `except`
handler: a raised error drops the whole item. -/
def exq (e : Except Unit (Option ℚ)) : Option (Option ℚ) :=
  match e with
  | .error _ => none
  | .ok v => some v

/-- Python `x or default` on an optional float (`None` and `0.0` both
take the default), as in `'volume_oz': volume_oz or 12.0`. -/
def pyOrQ (x : Option ℚ) (d : ℚ) : ℚ :=
  match x with
  | none => d
  | some q => if q = 0 then d else q

/-- `parse_generic_beer_info`: numeric fields are parsed from the
lower-cased text, the name is the leading `[a-zA-Z\s]+` run of the
stripped original text (then stripped again); a missing name or a
raised `ValueError` drops the item. -/
def parse_generic_beer_info (raw : String) : Option MenuItem := do
  let lowered := (lowerS raw).toList
  let volume_oz ← exq (gVolume lowered)
  let abv ← exq (extractAbvE (lowerS raw))
  let price ← exq (extractPriceE (lowerS raw))
  let run := (pyStrip raw.toList).takeWhile nameChar
  if run.isEmpty then none
  else
    let name := pyStrip run
    if name.isEmpty then none
    else
      some { name := strOf name, volume_oz := some (pyOrQ volume_oz 12), abv := abv,
             price := price, brewery := "", style := none }

/-! ### Establishment metadata extraction
(`extract_establishment_info`, lines 85-126) -/

/-- Default establishment name of line 88. -/
def unknownEst : String := "Unknown Establishment"

/-- Title delimiter `" - Beer Menu - "` of line 99. -/
def menuPatFull : String := " - Beer Menu - "

/-- Title suffix `" - Beer Menu"` of line 104. -/
def menuPatShort : String := " - Beer Menu"

/-- `extract_establishment_info`: name from the title split (full
pattern preferred, short pattern removed otherwise), `h1` fallback when
the name is still the default; description from the beer-counts summary
with a meta-description fallback; location defaults to the empty
string. -/
def extract_establishment_info (soup : Soup) : EstInfo :=
  let step1 : String × String :=
    match soup.title with
    | none => (unknownEst, "")
    | some t =>
      if pyInS menuPatFull t then
        let parts := pySplit t menuPatFull
        (pyStripS (parts.getD 0 ""),
         if 1 < parts.length then pyStripS (parts.getD 1 "") else "")
      else if pyInS menuPatShort t then
        (pyStripS (strOf (replaceSub menuPatShort.toList [] t.toList)), "")
      else (unknownEst, "")
  let name :=
    match soup.h1 with
    | some h => if step1.1 = unknownEst then pyStripS h else step1.1
    | none => step1.1
  let desc0 :=
    match soup.beerCounts with
    | some c => pyStripS c
    | none => ""
  let desc :=
    match soup.metaDesc with
    | some m => if desc0 = "" then m else desc0
    | none => desc0
  ⟨name, step1.2, desc⟩

/-! ### Structural matcher chain -/

/-- The fixed BeerMenus section selectors of lines 51-57, in source
order. -/
def beer_sections : List String :=
  ["#on_tap li.pure-list-item",
   "#bottles_cans li.pure-list-item",
   "#cider_perry li.pure-list-item",
   "#mead_cyser li.pure-list-item",
   "ul.pure-list-featured li.pure-list-item"]

/-- Per-section candidate handling of lines 63-70: skip `View all`
items, parse, keep only items that parsed and have a truthy name. -/
def bmSectionItems (items : List BMItem) : List MenuItem :=
  items.filterMap (fun it =>
    if "pure-list-item-more" ∈ it.classes then none
    else
      match parse_beermenus_item it with
      | some b => if b.name = "" then none else some b
      | none => none)

/-- `scrape_beermenus` (lines 34-83): on a successful fetch, extract the
establishment info and append the candidates of every section selector
in order; on any raised exception return the empty list and the default
info dict of line 83. -/
def scrape_beermenus (fetch : Except Unit Soup) : List MenuItem × EstInfo :=
  match fetch with
  | .error _ => ([], ⟨"Unknown", "", ""⟩)
  | .ok soup =>
    let info := extract_establishment_info soup
    let beers := beer_sections.foldl (fun acc sel => acc ++ bmSectionItems (bmSelect soup sel)) []
    (beers, info)

/-- The generic selector list of lines 282-285, in source order. -/
def generic_selectors : List String :=
  [".beer-item", ".menu-item", ".beer", ".drink-item",
   "[class*=\"beer\"]", "[class*=\"menu\"]", "[class*=\"drink\"]"]

/-- Candidate handling within the winning generic selector
(lines 291-294): parse each element, keep items with a truthy name. -/
def gParseElems (elements : List String) : List MenuItem :=
  elements.filterMap (fun e =>
    (parse_generic_beer_info e).bind (fun b => if b.name = "" then none else some b))

/-- The selector loop of lines 288-295: the first selector returning any
elements wins (`break`), later selectors are never consulted. -/
def runGeneric (soup : Soup) : List String → List MenuItem
  | [] => []
  | sel :: rest =>
    let elements := gSelect soup sel
    if elements.isEmpty then runGeneric soup rest
    else gParseElems elements

/-- `scrape_generic_menu` (lines 273-301): run the generic selector
chain; any raised exception yields the empty list. -/
def scrape_generic_menu (fetch : Except Unit Soup) : List MenuItem :=
  match fetch with
  | .error _ => []
  | .ok soup => runGeneric soup generic_selectors

/-- URL dispatch test of line 261. -/
def isBeerMenusUrl (url : String) : Bool :=
  pyInS "beermenus.com" url

/-- `scrape_establishment_menu` (lines 259-271): site-aware dispatch;
the generic branch uses a fixed info dict built from the URL. -/
def scrape_establishment_menu (url : String) (fetch : Except Unit Soup) :
    List MenuItem × EstInfo :=
  if isBeerMenusUrl url then scrape_beermenus fetch
  else (scrape_generic_menu fetch,
        ⟨"Unknown Establishment", "", "Generic scrape from " ++ url⟩)

/-! ### Enrichment Client (`search_beeradvocate`, lines 211-257) -/

/-- Rating/style/profile-url dict returned on a successful lookup. -/
structure BAData where
  rating : Option ℚ
  style : Option String
  url : String
deriving DecidableEq

/-- The beer detail page: the `BAscore_norm` span text and the style
link text, when present. -/
structure BAPage where
  ratingText : Option String
  styleText : Option String
deriving DecidableEq

/-- `search_beeradvocate`: the search response carries the first
profile-link href when one exists; any transport error, missing search
result, or rating text whose capture fails `float()` lands in the
`except` handler and yields `none`. -/
def search_beeradvocate (searchResp : Except Unit (Option String))
    (detailResp : Except Unit BAPage) : Option BAData :=
  match searchResp with
  | .error _ => none
  | .ok none => none
  | .ok (some href) =>
    match detailResp with
    | .error _ => none
    | .ok page =>
      let ratingE : Except Unit (Option ℚ) :=
        match page.ratingText with
        | none => .ok none
        | some rt => floatCapture (searchNumAny rt.toList)
      match ratingE with
      | .error _ => none
      | .ok r =>
        some { rating := r, style := page.styleText.map pyStripS,
               url := "https://www.beeradvocate.com" ++ href }

/-! ### Reconciliation Store Adapter (SQLite state)

`app.py` declares `establishments(id INTEGER PRIMARY KEY AUTOINCREMENT,
…, url TEXT UNIQUE)` and `beers(id INTEGER PRIMARY KEY AUTOINCREMENT,
establishment_id INTEGER, …)`.  `INSERT OR REPLACE` deletes every row
conflicting on the unique `url` and inserts a fresh row; AUTOINCREMENT
ids are strictly increasing and never reused, which the `nextEstId` /
`nextBeerId` counters model. -/

/-- A row of the `establishments` table. -/
structure EstRow where
  id : Nat
  name : String
  url : Option String
  location : Option String
  last_scraped : Nat
deriving DecidableEq

/-- A row of the `beers` table. -/
structure BeerRow where
  id : Nat
  establishment_id : Nat
  name : String
  volume_oz : Option ℚ
  abv : Option ℚ
  price : Option ℚ
  value_score : ℚ
  brewery : String
  ba_rating : Option ℚ
  ba_style : Option String
  ba_url : Option String
deriving DecidableEq

/-- The database state. -/
structure DBState where
  establishments : List EstRow
  beers : List BeerRow
  nextEstId : Nat
  nextBeerId : Nat
deriving DecidableEq

/-- `save_establishment` (lines 349-363): `INSERT OR REPLACE` keyed on
the unique `url`, returning `lastrowid` of the freshly inserted row. -/
def save_establishment (db : DBState) (name url : String) (location : Option String)
    (now : Nat) : DBState × Nat :=
  let kept := db.establishments.filter (fun e => !decide (e.url = some url))
  let newRow : EstRow :=
    { id := db.nextEstId, name := name, url := some url,
      location := location, last_scraped := now }
  ({ db with establishments := kept ++ [newRow], nextEstId := db.nextEstId + 1 },
   db.nextEstId)

/-- Python `a or b` on an optional string (`None` and `''` are falsy),
as in `name or establishment_info['name']`. -/
def pyOrS (a : Option String) (b : String) : String :=
  match a with
  | none => b
  | some s => if s = "" then b else s

/-- Python `a or b` on two optional strings, as in
`beer.get('style') or (ba_data['style'] if ba_data else None)`. -/
def pyOrOS (a b : Option String) : Option String :=
  match a with
  | none => b
  | some s => if s = "" then b else some s

/-- Enrichment gate of lines 375-378: the lookup runs only when the
brewery is truthy. -/
def effectiveBA (enrich : MenuItem → Option BAData) (beer : MenuItem) : Option BAData :=
  if beer.brewery ≠ "" then enrich beer else none

/-- One inserted `beers` row (lines 380-397): the value score is
recomputed at write time and the BeerAdvocate fields default to NULL. -/
def mkBeerRow (estId rowId : Nat) (enrich : MenuItem → Option BAData)
    (beer : MenuItem) : BeerRow :=
  let ba := effectiveBA enrich beer
  { id := rowId
    establishment_id := estId
    name := beer.name
    volume_oz := beer.volume_oz
    abv := beer.abv
    price := beer.price
    value_score := calculate_value_score beer.volume_oz beer.abv beer.price
    brewery := beer.brewery
    ba_rating := ba.bind (·.rating)
    ba_style := pyOrOS beer.style (ba.bind (·.style))
    ba_url := ba.map (·.url) }

/-- The insert loop of lines 373-397, with AUTOINCREMENT row ids. -/
def mkBeerRows (estId : Nat) (enrich : MenuItem → Option BAData) :
    Nat → List MenuItem → List BeerRow
  | _, [] => []
  | rowId, beer :: rest => mkBeerRow estId rowId enrich beer :: mkBeerRows estId enrich (rowId + 1) rest

/-- `save_beers` (lines 365-400): delete the rows of `establishment_id`,
then insert a row per item. -/
def save_beers (db : DBState) (estId : Nat) (beers : List MenuItem)
    (enrich : MenuItem → Option BAData) : DBState :=
  let cleared := db.beers.filter (fun b => !decide (b.establishment_id = estId))
  { db with beers := cleared ++ mkBeerRows estId enrich db.nextBeerId beers,
            nextBeerId := db.nextBeerId + beers.length }

/-- `scrape_establishment` (lines 402-430), parametrised by the already
scraped `(items, info)` pair and the enrichment oracle: upsert the
establishment, then — only when the scrape found any item — replace its
beers; return the item count and the final info dict. -/
def scrape_establishment (db : DBState) (url : String) (name location : Option String)
    (menu : List MenuItem × EstInfo) (enrich : MenuItem → Option BAData)
    (now : Nat) : Nat × EstInfo × DBState :=
  let beers := menu.1
  let einfo := menu.2
  let final_name := pyOrS name einfo.name
  let final_location := pyOrS location einfo.location
  let p := save_establishment db final_name url (some final_location) now
  let db2 := if beers.isEmpty then p.1 else save_beers p.1 p.2 beers enrich
  (beers.length, ⟨final_name, final_location, einfo.description⟩, db2)

/-! ### Observation functions on the database -/

/-- The establishment rows stored under a URL. -/
def estRowsFor (db : DBState) (u : String) : List EstRow :=
  db.establishments.filter (fun e => decide (e.url = some u))

/-- The beer rows joined to the establishment rows of a URL — what every
query of `app.py` observes (all of them join on `establishment_id`). -/
def itemsFor (db : DBState) (u : String) : List BeerRow :=
  db.beers.filter (fun b => decide (b.establishment_id ∈ (estRowsFor db u).map EstRow.id))

/-- Well-formedness maintained by the AUTOINCREMENT id discipline: every
stored beer row refers to an id below the next fresh establishment
id. -/
def DBwf (db : DBState) : Prop :=
  ∀ b ∈ db.beers, b.establishment_id < db.nextEstId

/-! ### General helper lemmas -/

/-- Accumulating `foldl` over per-selector candidate lists is the
concatenation of all sections. -/
theorem foldl_append_eq_join {α β : Type} (f : α → List β) (l : List α) (acc : List β) :
    l.foldl (fun a s => a ++ f s) acc = acc ++ (l.map f).flatten := by
  induction l generalizing acc with
  | nil => simp
  | cons s t ih => simp [ih, List.append_assoc]

/-- A list filtered by the negation of a predicate has no element left
satisfying it. -/
theorem filter_neg_filter {α : Type} (p : α → Bool) (l : List α) :
    (l.filter (fun a => !p a)).filter p = [] := by
  induction l with
  | nil => rfl
  | cons a t ih =>
    by_cases h : p a = true
    · simp [List.filter_cons, h, ih]
    · simp only [Bool.not_eq_true] at h
      simp [List.filter_cons, h, ih]

/-- The generic selector loop returns nothing when every selector
returns no elements. -/
theorem runGeneric_all_empty (soup : Soup) (sels : List String)
    (h : ∀ sel ∈ sels, gSelect soup sel = []) : runGeneric soup sels = [] := by
  induction sels with
  | nil => rfl
  | cons s t ih =>
    have hs : gSelect soup s = [] := h s (by simp)
    simp [runGeneric, hs, ih (fun x hx => h x (by simp [hx]))]

/-- The item list of a successful BeerMenus scrape is the concatenation
of the candidates of all five section selectors, in order. -/
theorem scrape_beermenus_join (soup : Soup) :
    (scrape_beermenus (.ok soup)).1 =
      (beer_sections.map (fun sel => bmSectionItems (bmSelect soup sel))).flatten := by
  simp [scrape_beermenus, foldl_append_eq_join]

/-- C1: the value-score computation is a pure total function returning 0
whenever volume, ABV or price is unknown or the price is zero, and
otherwise exactly `(volume_oz * (abv / 100)) / price` with no further
rounding. -/
theorem C1_value_score_exact (v a p : Option ℚ) :
    ((v = none ∨ a = none ∨ p = none ∨ p = some 0) → calculate_value_score v a p = 0) ∧
    (∀ vq aq pq : ℚ, v = some vq → a = some aq → p = some pq → pq ≠ 0 →
      calculate_value_score v a p = vq * (aq / 100) / pq) := by
  constructor
  · rintro (rfl | rfl | rfl | rfl) <;>
      simp [calculate_value_score, pyTruthy]
  · rintro vq aq pq rfl rfl rfl hpq
    by_cases hv : vq = 0
    · subst hv
      simp [calculate_value_score, pyTruthy]
    · by_cases ha : aq = 0
      · subst ha
        simp [calculate_value_score, pyTruthy, hv]
      · simp [calculate_value_score, pyTruthy, hv, ha, hpq]

/-- Witness for C1 at the spec's end-to-end scenario
(16 oz, 6.5 %, 8 dollars). -/
theorem C1_value_score_exact_witness :
    calculate_value_score (some 16) (some (mkRat 13 2)) (some 8) = 16 * (mkRat 13 2 / 100) / 8 :=
  (C1_value_score_exact (some 16) (some (mkRat 13 2)) (some 8)).2 16 (mkRat 13 2) 8 rfl rfl rfl
    (by norm_num)

/-! ### C3: strategy ordering -/

/-- Two one-beer fragments placed in two different BeerMenus sections. -/
def bmItemA : BMItem := ⟨[], some "Alpha", none, none⟩

/-- Second fragment for the C3 document. -/
def bmItemB : BMItem := ⟨[], some "Beta", none, none⟩

/-- A document whose first two section selectors both return
candidates. -/
def soupTwoSections : Soup :=
  ⟨none, none, none, none,
   [("#on_tap li.pure-list-item", [bmItemA]), ("#bottles_cans li.pure-list-item", [bmItemB])],
   []⟩

/-- C3 counterexample: on a document where the first two BeerMenus
section selectors both yield a candidate, the scrape result is NOT the
first selector's output only — the loop of lines 59-70 has no `break`
and merges the candidates of every matching section. -/
theorem C3_counterexample :
    bmSelect soupTwoSections "#on_tap li.pure-list-item" ≠ [] ∧
    bmSelect soupTwoSections "#bottles_cans li.pure-list-item" ≠ [] ∧
    (scrape_beermenus (.ok soupTwoSections)).1 ≠
      bmSectionItems (bmSelect soupTwoSections "#on_tap li.pure-list-item") := by
  decide

/-- C3 (amended): the generic matcher does stop at the first selector
returning any elements — its result is that selector's parsed output
alone, independent of every later selector — while the BeerMenus matcher
concatenates the candidates of all five section selectors in priority
order. -/
theorem C3_first_selector_wins :
    (∀ soup sel rest, gSelect soup sel ≠ [] →
      runGeneric soup (sel :: rest) = gParseElems (gSelect soup sel) ∧
      ∀ rest2, runGeneric soup (sel :: rest) = runGeneric soup (sel :: rest2)) ∧
    (∀ soup, (scrape_beermenus (.ok soup)).1 =
      (beer_sections.map (fun sel => bmSectionItems (bmSelect soup sel))).flatten) := by
  constructor
  · intro soup sel rest h
    cases hg : gSelect soup sel with
    | nil => exact absurd hg h
    | cons a t =>
      refine ⟨by simp [runGeneric, hg], fun rest2 => ?_⟩
      simp [runGeneric, hg]
  · exact scrape_beermenus_join

/-- A document where only the first generic selector matches. -/
def soupOneGeneric : Soup :=
  ⟨none, none, none, none, [], [(".beer-item", ["Stout $4"])]⟩

/-- Witness for C3: the amended theorem applied to a concrete document
whose first generic selector is non-empty. -/
theorem C3_first_selector_wins_witness :
    runGeneric soupOneGeneric (".beer-item" :: [".menu-item"]) =
      gParseElems (gSelect soupOneGeneric ".beer-item") :=
  (C3_first_selector_wins.1 soupOneGeneric ".beer-item" [".menu-item"] (by decide)).1

/-! ### C4: total scrape with sentinel results -/

/-- C4: the scrape entry points return an (item list, info) pair on
every input — empty list plus best-effort metadata when no structural
strategy matches, empty list plus the default/URL-derived metadata on a
transport failure — and, being total functions, never raise. -/
theorem C4_scrape_never_raises :
    (∀ soup, (∀ sel ∈ beer_sections, bmSelect soup sel = []) →
      scrape_beermenus (.ok soup) = ([], extract_establishment_info soup)) ∧
    (scrape_beermenus (.error ()) = ([], ⟨"Unknown", "", ""⟩)) ∧
    (∀ url soup, isBeerMenusUrl url = false →
      (∀ sel ∈ generic_selectors, gSelect soup sel = []) →
      scrape_establishment_menu url (.ok soup) =
        ([], ⟨"Unknown Establishment", "", "Generic scrape from " ++ url⟩)) ∧
    (∀ url, isBeerMenusUrl url = false →
      scrape_establishment_menu url (.error ()) =
        ([], ⟨"Unknown Establishment", "", "Generic scrape from " ++ url⟩)) := by
  refine ⟨?_, rfl, ?_, ?_⟩
  · intro soup h
    have hb : (scrape_beermenus (.ok soup)).1 = [] := by
      rw [scrape_beermenus_join]
      apply List.flatten_eq_nil_iff.mpr
      intro l hl
      rcases List.mem_map.mp hl with ⟨sel, hsel, rfl⟩
      rw [h sel hsel]
      rfl
    have hi : (scrape_beermenus (.ok soup)).2 = extract_establishment_info soup := rfl
    calc scrape_beermenus (.ok soup)
        = ((scrape_beermenus (.ok soup)).1, (scrape_beermenus (.ok soup)).2) := rfl
      _ = ([], extract_establishment_info soup) := by rw [hb, hi]
  · intro url soup hurl h
    simp [scrape_establishment_menu, hurl, scrape_generic_menu,
      runGeneric_all_empty soup generic_selectors h]
  · intro url hurl
    simp [scrape_establishment_menu, hurl, scrape_generic_menu]

/-- An empty document. -/
def soupEmpty : Soup := ⟨none, none, none, none, [], []⟩

/-- Witness for C4: the structural-miss conjuncts applied to a concrete
empty document and a concrete non-BeerMenus URL. -/
theorem C4_scrape_never_raises_witness :
    scrape_beermenus (.ok soupEmpty) = ([], extract_establishment_info soupEmpty) ∧
    scrape_establishment_menu "http://example.com/menu" (.ok soupEmpty) =
      ([], ⟨"Unknown Establishment", "", "Generic scrape from http://example.com/menu"⟩) :=
  ⟨C4_scrape_never_raises.1 soupEmpty (by decide),
   C4_scrape_never_raises.2.2.1 "http://example.com/menu" soupEmpty (by decide) (by decide)⟩

/-! ### C5 and C10: field normalisation of the generic parser -/

/-- Anatomy of a successful generic parse: values of the three numeric
fields and the shape of the produced item. -/
theorem parse_generic_fields (raw : String) (i : MenuItem)
    (h : parse_generic_beer_info raw = some i) :
    ∃ v a p, exq (gVolume (lowerS raw).toList) = some v ∧
      exq (extractAbvE (lowerS raw)) = some a ∧
      exq (extractPriceE (lowerS raw)) = some p ∧
      i = { name := strOf (pyStrip ((pyStrip raw.toList).takeWhile nameChar)),
            volume_oz := some (pyOrQ v 12), abv := a, price := p,
            brewery := "", style := none } := by
  rcases hv : exq (gVolume (lowerS raw).toList) with _ | v
  · rw [parse_generic_beer_info, hv] at h
    simp at h
  · rcases ha : exq (extractAbvE (lowerS raw)) with _ | a
    · rw [parse_generic_beer_info, hv, ha] at h
      simp at h
    · rcases hp : exq (extractPriceE (lowerS raw)) with _ | p
      · rw [parse_generic_beer_info, hv, ha, hp] at h
        simp at h
      · refine ⟨v, a, p, rfl, rfl, rfl, ?_⟩
        rw [parse_generic_beer_info, hv, ha, hp] at h
        simp at h
        exact h.2.2.symm

/-- A fragment whose leading character is not alphabetic is dropped by
the generic parser. -/
theorem parse_generic_drop (raw : String) (c : Char) (rest : List Char)
    (hs : pyStrip raw.toList = c :: rest) (hca : asciiAlpha c = false)
    (hcw : pyWs c = false) : parse_generic_beer_info raw = none := by
  have hs' : pyStrip raw.data = c :: rest := hs
  rcases hi : parse_generic_beer_info raw with _ | i
  · rfl
  · exfalso
    rcases hv : exq (gVolume (lowerS raw).toList) with _ | v <;>
      rcases ha : exq (extractAbvE (lowerS raw)) with _ | a <;>
      rcases hp : exq (extractPriceE (lowerS raw)) with _ | p <;>
      rw [parse_generic_beer_info, hv] at hi <;>
      simp [ha, hp, hs, hs', List.takeWhile, nameChar, hca, hcw] at hi

/-- C5 counterexample: a generic fragment that mentions draft service
and has no determinable volume is given the 12.0 default, not 16.0 —
the generic parser (line 340) never applies the draft/tap heuristic. -/
theorem C5_counterexample :
    pyIn ("draft".toList) (lowerS "Draft Beer $5.00").toList = true ∧
    gVolume (lowerS "Draft Beer $5.00").toList = .ok none ∧
    parse_generic_beer_info "Draft Beer $5.00" =
      some { name := "Draft Beer", volume_oz := some 12, abv := none,
             price := some (mkRat 5 1), brewery := "", style := none } ∧
    (12 : ℚ) ≠ 16 := by
  decide

/-- C5 (amended): when the volume is undetermined, the BeerMenus parser
defaults to 16.0 if the price caption mentions draft or tap and to 12.0
otherwise (and to 12.0 when there is no price caption at all), while the
generic parser always defaults to 12.0; a milliliter capture is
converted to ounces by multiplying by exactly 33814/1000000 = 0.033814
in both parsers. -/
theorem C5_volume_defaults :
    (∀ pt : List Char, bmVolume pt = .ok none →
      (pyIn ("draft".toList) (lowerL pt) || pyIn ("tap".toList) (lowerL pt)) = true →
      bmVolumeFinal pt = .ok 16) ∧
    (∀ pt : List Char, bmVolume pt = .ok none →
      (pyIn ("draft".toList) (lowerL pt) || pyIn ("tap".toList) (lowerL pt)) = false →
      bmVolumeFinal pt = .ok 12) ∧
    (∀ raw i, gVolume (lowerS raw).toList = .ok none →
      parse_generic_beer_info raw = some i → i.volume_oz = some 12) ∧
    (∀ l run q, searchOzCI l = none → searchMlCI l = some run → pyFloat? run = some q →
      bmVolume l = .ok (some (q * mlFactor))) ∧
    (∀ l run q, pyIn ['o', 'z'] l = false → pyIn ['m', 'l'] l = true →
      searchMlWs l = some run → pyFloat? run = some q →
      gVolume l = .ok (some (q * mlFactor))) := by
  refine ⟨?_, ?_, ?_, ?_, ?_⟩
  · intro pt hv hd
    simp at hd
    simp [bmVolumeFinal, hv]
    intro hdr
    rcases hd with hd | hd
    · exact absurd hd (by simp [hdr])
    · exact hd
  · intro pt hv hd
    simp at hd
    simp [bmVolumeFinal, hv]
    exact hd
  · intro raw i hv hi
    obtain ⟨v, a, p, hv', _, _, rfl⟩ := parse_generic_fields raw i hi
    rw [hv] at hv'
    simp [exq] at hv'
    simp [← hv', pyOrQ]
  · intro l run q hoz hml hq
    simp [bmVolume, hoz, hml, floatCapture, hq, Except.map]
  · intro l run q hoz hml hws hq
    simp [gVolume, hoz, hml, hws, floatCapture, hq, Except.map]

/-- Witness for C5: the amended theorem applied to concrete captions
with undetermined volume, with and without a draft mention. -/
theorem C5_volume_defaults_witness :
    bmVolumeFinal ("Nitro Draft $7".toList) = .ok 16 ∧
    bmVolumeFinal ("Bottle $7".toList) = .ok 12 :=
  ⟨C5_volume_defaults.1 ("Nitro Draft $7".toList) (by decide) (by decide),
   C5_volume_defaults.2.1 ("Bottle $7".toList) (by decide) (by decide)⟩

/-- C10 counterexample: the stored name is the leading alphabetic run
stripped of its trailing whitespace, not the raw run itself. -/
theorem C10_counterexample :
    (pyStrip ("Pale Ale 7% $4.50".toList)).takeWhile nameChar = "Pale Ale ".toList ∧
    parse_generic_beer_info "Pale Ale 7% $4.50" =
      some { name := "Pale Ale", volume_oz := some 12, abv := some (mkRat 7 1),
             price := some (mkRat 9 2), brewery := "", style := none } ∧
    ("Pale Ale" : String) ≠ "Pale Ale " := by
  decide

/-- C10 (amended): the generic item name is the maximal leading run of
ASCII letters and whitespace of the stripped fragment text, itself
stripped of surrounding whitespace; a fragment whose stripped text
starts with a non-letter non-whitespace character (digit or punctuation)
is dropped entirely. -/
theorem C10_generic_name :
    (∀ raw i, parse_generic_beer_info raw = some i →
      i.name = strOf (pyStrip ((pyStrip raw.toList).takeWhile nameChar))) ∧
    (∀ raw c rest, pyStrip raw.toList = c :: rest → asciiAlpha c = false → pyWs c = false →
      parse_generic_beer_info raw = none) := by
  refine ⟨?_, parse_generic_drop⟩
  intro raw i hi
  obtain ⟨v, a, p, _, _, _, rfl⟩ := parse_generic_fields raw i hi
  rfl

/-- Witness for C10: the amended theorem applied to a concrete
letters-then-digits fragment and to a concrete digit-leading one. -/
theorem C10_generic_name_witness :
    (parse_generic_beer_info "Stout Nine 9% $9" = some
      { name := "Stout Nine", volume_oz := some 12, abv := some (mkRat 9 1),
        price := some (mkRat 9 1), brewery := "", style := none } →
      ({ name := "Stout Nine", volume_oz := some 12, abv := some (mkRat 9 1),
         price := some (mkRat 9 1), brewery := "", style := none } : MenuItem).name =
        strOf (pyStrip ((pyStrip ("Stout Nine 9% $9".toList)).takeWhile nameChar))) ∧
    parse_generic_beer_info "7 Seas IPA $5" = none :=
  ⟨C10_generic_name.1 "Stout Nine 9% $9" _,
   C10_generic_name.2 "7 Seas IPA $5" '7' (" Seas IPA $5".toList) (by decide) (by decide) (by decide)⟩

/-! ### C6: positional caption assignment -/

/-- C6 counterexample: a caption with no delimiter splits into a single
part, and then NO field is assigned — part 0 is not stored as the style
(the positional assignment of lines 158-165 requires at least two
parts). -/
theorem C6_counterexample :
    (pySplit "IPA" "·").map pyStripS = ["IPA"] ∧
    parseCaption "IPA" = .ok ("", none, "") ∧
    ("" : String) ≠ "IPA" := by
  decide

/-- C6 (amended): captions are split on `·` and stripped; when at least
two parts result, part 0 becomes the style and part 1 the ABV if
percent-parseable; part 2 becomes the brewery when at least three parts
result; parts beyond the third are ignored; with fewer than two parts
nothing is assigned. -/
theorem C6_caption_positional (parts : List String) :
    parseCaptionParts parts = parseCaptionParts (parts.take 3) ∧
    (2 ≤ parts.length →
      parseCaptionParts parts = (extractAbvE (parts.getD 1 "")).map
        (fun a => (parts.getD 0 "", a, if 3 ≤ parts.length then parts.getD 2 "" else ""))) ∧
    (parts.length ≤ 1 → parseCaptionParts parts = .ok ("", none, "")) ∧
    (∀ c, parseCaption c = parseCaptionParts ((pySplit c "·").map pyStripS)) := by
  refine ⟨?_, ?_, ?_, fun c => rfl⟩
  · rcases parts with _ | ⟨a, _ | ⟨b, _ | ⟨d, rest⟩⟩⟩ <;>
      simp [parseCaptionParts, List.take]
  · intro h2
    rcases parts with _ | ⟨a, _ | ⟨b, rest⟩⟩
    · simp at h2
    · simp at h2
    · rcases he : extractAbvE b with u | av <;>
        · rcases rest with _ | ⟨d, rest2⟩ <;>
            simp [parseCaptionParts, he, Except.map, Bind.bind, Except.bind]
  · intro h1
    rcases parts with _ | ⟨a, _ | ⟨b, rest⟩⟩
    · simp [parseCaptionParts, Bind.bind, Except.bind]
    · simp [parseCaptionParts, Bind.bind, Except.bind]
    · simp at h1

/-- Witness for C6: the amended theorem applied to a concrete four-part
caption. -/
theorem C6_caption_positional_witness :
    parseCaptionParts ["IPA", "6.5%", "Founders", "extra"] =
      (extractAbvE "6.5%").map (fun a => ("IPA", a, "Founders")) :=
  (C6_caption_positional ["IPA", "6.5%", "Founders", "extra"]).2.1 (by decide)

/-! ### C7: establishment metadata fallback chain -/

/-- C7: the metadata extractor prefers the title split on the
`" - Beer Menu - "` pattern for name and location, falls back to the
`h1` heading when the title is absent or matches neither pattern, leaves
the location empty when the full pattern is absent, and falls back from
the page beer-count summary to the meta description for the
description. -/
theorem C7_metadata_fallback_chain :
    (∀ soup h, (soup.title = none ∨ ∃ t, soup.title = some t ∧
        pyInS menuPatFull t = false ∧ pyInS menuPatShort t = false) →
      soup.h1 = some h → (extract_establishment_info soup).name = pyStripS h) ∧
    (∀ soup t, soup.title = some t → pyInS menuPatFull t = true →
      pyStripS ((pySplit t menuPatFull).getD 0 "") ≠ unknownEst →
      (extract_establishment_info soup).name = pyStripS ((pySplit t menuPatFull).getD 0 "") ∧
      (extract_establishment_info soup).location =
        (if 1 < (pySplit t menuPatFull).length then pyStripS ((pySplit t menuPatFull).getD 1 "") else "")) ∧
    (∀ soup, (∀ t, soup.title = some t → pyInS menuPatFull t = false) →
      (extract_establishment_info soup).location = "") ∧
    (∀ soup c, soup.beerCounts = some c → pyStripS c ≠ "" →
      (extract_establishment_info soup).description = pyStripS c) ∧
    (∀ soup m, soup.metaDesc = some m →
      (soup.beerCounts = none ∨ ∃ c, soup.beerCounts = some c ∧ pyStripS c = "") →
      (extract_establishment_info soup).description = m) := by
  refine ⟨?_, ?_, ?_, ?_, ?_⟩
  · intro soup h htitle hh
    rcases htitle with hnone | ⟨t, hsome, hfull, hshort⟩
    · simp [extract_establishment_info, hnone, hh]
    · simp [extract_establishment_info, hsome, hfull, hshort, hh]
  · intro soup t hsome hfull hne
    have hne' : pyStripS ((pySplit t menuPatFull)[0]?.getD "") ≠ unknownEst := by
      simpa using hne
    rcases hh1 : soup.h1 with _ | hv <;>
      constructor <;>
        simp [extract_establishment_info, hsome, hfull, hh1, hne']
  · intro soup hno
    rcases ht : soup.title with _ | t
    · rcases hh1 : soup.h1 with _ | hv <;>
        simp [extract_establishment_info, ht, hh1]
    · have hfull := hno t ht
      cases hsh : pyInS menuPatShort t <;>
        rcases hh1 : soup.h1 with _ | hv <;>
          simp [extract_establishment_info, ht, hfull, hsh, hh1]
  · intro soup c hbc hne
    rcases hmd : soup.metaDesc with _ | m <;>
      simp [extract_establishment_info, hbc, hmd, hne]
  · intro soup m hmd hbc
    rcases hbc with hbc | ⟨c, hbc, hblank⟩
    · simp [extract_establishment_info, hbc, hmd]
    · simp [extract_establishment_info, hbc, hmd, hblank]

/-- A concrete titled document for the C7 witness. -/
def soupTitled : Soup :=
  ⟨some "Bavarian Lodge - Beer Menu - Lisle, IL", some "Heading", some "  ",
   some "meta description", [], []⟩

/-- Witness for C7: the title-split and meta-description-fallback
conjuncts applied to a concrete document whose beer-count summary strips
to the empty string. -/
theorem C7_metadata_fallback_chain_witness :
    (extract_establishment_info soupTitled).name =
      pyStripS ((pySplit "Bavarian Lodge - Beer Menu - Lisle, IL" menuPatFull).getD 0 "") ∧
    (extract_establishment_info soupTitled).description = "meta description" :=
  ⟨(C7_metadata_fallback_chain.2.1 soupTitled "Bavarian Lodge - Beer Menu - Lisle, IL"
      rfl (by decide) (by decide)).1,
   C7_metadata_fallback_chain.2.2.2.2 soupTitled "meta description" rfl
     (Or.inr ⟨"  ", rfl, by decide⟩)⟩

/-! ### C8: enrichment misses are absent, items persist -/

/-- Every item of the insert loop yields a row in the produced row
list. -/
theorem mem_mkBeerRows (estId : Nat) (enrich : MenuItem → Option BAData) (it : MenuItem) :
    ∀ start items, it ∈ items →
      ∃ rid, mkBeerRow estId rid enrich it ∈ mkBeerRows estId enrich start items := by
  intro start items
  induction items generalizing start with
  | nil => intro h; cases h
  | cons b rest ih =>
    intro h
    rcases List.mem_cons.mp h with rfl | hm
    · exact ⟨start, List.mem_cons_self _ _⟩
    · obtain ⟨rid, hr⟩ := ih (start + 1) hm
      exact ⟨rid, List.mem_cons_of_mem _ hr⟩

/-- C8: every failure mode of the two-step BeerAdvocate lookup —
transport error on either request, no search result, unparseable rating
text — yields `none` instead of an error, and an item whose enrichment
is absent is still inserted by `save_beers`, with its rating and
rating-url columns NULL. -/
theorem C8_enrichment_absent :
    (∀ d, search_beeradvocate (.error ()) d = none) ∧
    (∀ d, search_beeradvocate (.ok none) d = none) ∧
    (∀ href, search_beeradvocate (.ok (some href)) (.error ()) = none) ∧
    (∀ href rt run, searchNumAny rt.toList = some run → pyFloat? run = none →
      search_beeradvocate (.ok (some href)) (.ok ⟨some rt, none⟩) = none) ∧
    (∀ db estId items enrich it, it ∈ items → effectiveBA enrich it = none →
      ∃ r ∈ (save_beers db estId items enrich).beers,
        r.name = it.name ∧ r.ba_rating = none ∧ r.ba_url = none) := by
  refine ⟨fun d => rfl, fun d => rfl, fun href => rfl, ?_, ?_⟩
  · intro href rt run hrun hfl
    have hrun' : searchNumAny rt.data = some run := hrun
    simp [search_beeradvocate, hrun', hfl, floatCapture]
  · intro db estId items enrich it hmem hba
    obtain ⟨rid, hr⟩ := mem_mkBeerRows estId enrich it db.nextBeerId items hmem
    refine ⟨mkBeerRow estId rid enrich it, ?_, rfl, ?_, ?_⟩
    · exact List.mem_append_right _ hr
    · simp [mkBeerRow, hba]
    · simp [mkBeerRow, hba]

/-- A concrete item without enrichment for the C8 witness. -/
def itemNoBA : MenuItem := ⟨"Alpha", some 12, none, some (mkRat 7 1), "", some ""⟩

/-- An empty database for concrete witnesses. -/
def dbEmpty : DBState := ⟨[], [], 1, 1⟩

/-- Witness for C8: the persistence conjunct applied to a concrete item
whose enrichment lookup is skipped/absent, plus the unparseable-rating
conjunct at a concrete rating text. -/
theorem C8_enrichment_absent_witness :
    (∃ r ∈ (save_beers dbEmpty 7 [itemNoBA] (fun _ => none)).beers,
      r.name = itemNoBA.name ∧ r.ba_rating = none ∧ r.ba_url = none) ∧
    search_beeradvocate (.ok (some "/beer/profile/1/2/")) (.ok ⟨some "..", none⟩) = none :=
  ⟨C8_enrichment_absent.2.2.2.2 dbEmpty 7 [itemNoBA] (fun _ => none) itemNoBA
    (List.mem_singleton.mpr rfl) rfl,
   C8_enrichment_absent.2.2.2.1 "/beer/profile/1/2/" ".." ("..".toList) (by decide) (by decide)⟩

/-! ### Reconciliation lemmas (C2 and C9) -/

/-- The insert loop produces one row per item. -/
theorem mkBeerRows_length (estId : Nat) (enrich : MenuItem → Option BAData) :
    ∀ start items, (mkBeerRows estId enrich start items).length = items.length := by
  intro start items
  induction items generalizing start with
  | nil => rfl
  | cons b rest ih => simp [mkBeerRows, ih (start + 1)]

/-- An upsert keyed on the URL leaves exactly the fresh row stored under
that URL. -/
theorem filter_upsert (E : List EstRow) (u : String) (r : EstRow) (hr : r.url = some u) :
    ((E.filter fun e => !decide (e.url = some u)) ++ [r]).filter
      (fun e => decide (e.url = some u)) = [r] := by
  rw [List.filter_append, filter_neg_filter (fun e => decide (e.url = some u)) E]
  simp [List.filter_cons, hr]

/-- No stored beer row can refer to a fresh establishment id. -/
theorem filter_beers_fresh (N : Nat) (B : List BeerRow)
    (h : ∀ b ∈ B, b.establishment_id < N) :
    B.filter (fun b => decide (b.establishment_id = N)) = [] := by
  induction B with
  | nil => rfl
  | cons b rest ih =>
    have hne : b.establishment_id ≠ N := Nat.ne_of_lt (h b (List.mem_cons_self _ _))
    simp [List.filter_cons, hne, ih (fun x hx => h x (List.mem_cons_of_mem _ hx))]

/-- Every row built by the insert loop carries the target establishment
id. -/
theorem mkBeerRows_estid (N : Nat) (enrich : MenuItem → Option BAData) :
    ∀ start items r, r ∈ mkBeerRows N enrich start items → r.establishment_id = N := by
  intro start items
  induction items generalizing start with
  | nil => intro r hr; cases hr
  | cons b rest ih =>
    intro r hr
    rcases List.mem_cons.mp hr with rfl | hm
    · rfl
    · exact ih (start + 1) r hm

/-- Filtering the freshly inserted rows by their establishment keeps
them all. -/
theorem filter_mkBeerRows (N : Nat) (enrich : MenuItem → Option BAData) (start : Nat)
    (items : List MenuItem) :
    (mkBeerRows N enrich start items).filter (fun b => decide (b.establishment_id = N)) =
      mkBeerRows N enrich start items :=
  List.filter_eq_self.mpr (fun r hr => by
    simp [mkBeerRows_estid N enrich start items r hr])

/-- State produced by one `scrape_establishment` call: exactly one
establishment row is stored under the URL (the fresh one, carrying the
new timestamp), the beer rows joined to that URL are exactly the freshly
inserted rows (none, when the scrape found no items), well-formedness is
preserved, and the returned count is the scraped item count. -/
theorem scrape_state_spec (db : DBState) (hwf : DBwf db) (u : String) (items : List MenuItem)
    (info : EstInfo) (n l : Option String) (enrich : MenuItem → Option BAData) (now : Nat) :
    estRowsFor (scrape_establishment db u n l (items, info) enrich now).2.2 u =
      [⟨db.nextEstId, pyOrS n info.name, some u, some (pyOrS l info.location), now⟩] ∧
    itemsFor (scrape_establishment db u n l (items, info) enrich now).2.2 u =
      (if items.isEmpty then [] else mkBeerRows db.nextEstId enrich db.nextBeerId items) ∧
    DBwf (scrape_establishment db u n l (items, info) enrich now).2.2 ∧
    (scrape_establishment db u n l (items, info) enrich now).1 = items.length := by
  rcases items with _ | ⟨i0, irest⟩
  · have hbeers : (scrape_establishment db u n l ([], info) enrich now).2.2.beers = db.beers := by
      simp [scrape_establishment, save_establishment]
    have hnext : (scrape_establishment db u n l ([], info) enrich now).2.2.nextEstId =
        db.nextEstId + 1 := by
      simp [scrape_establishment, save_establishment]
    have hA : estRowsFor (scrape_establishment db u n l ([], info) enrich now).2.2 u =
        [⟨db.nextEstId, pyOrS n info.name, some u, some (pyOrS l info.location), now⟩] := by
      simp only [scrape_establishment, save_establishment, estRowsFor, List.isEmpty_nil,
        if_true]
      exact filter_upsert db.establishments u _ rfl
    refine ⟨hA, ?_, ?_, rfl⟩
    · simp only [itemsFor, hA, hbeers, List.map_cons, List.map_nil, List.mem_singleton]
      rw [filter_beers_fresh db.nextEstId db.beers hwf]
      simp
    · intro b hb
      rw [hbeers] at hb
      rw [hnext]
      exact Nat.lt_succ_of_lt (hwf b hb)
  · have hne : ¬ ((i0 :: irest).isEmpty = true) := by simp
    have hbeers : (scrape_establishment db u n l (i0 :: irest, info) enrich now).2.2.beers =
        (db.beers.filter fun b => !decide (b.establishment_id = db.nextEstId)) ++
          mkBeerRows db.nextEstId enrich db.nextBeerId (i0 :: irest) := by
      simp [scrape_establishment, save_establishment, save_beers]
    have hnext : (scrape_establishment db u n l (i0 :: irest, info) enrich now).2.2.nextEstId =
        db.nextEstId + 1 := by
      simp [scrape_establishment, save_establishment, save_beers]
    have hA : estRowsFor (scrape_establishment db u n l (i0 :: irest, info) enrich now).2.2 u =
        [⟨db.nextEstId, pyOrS n info.name, some u, some (pyOrS l info.location), now⟩] := by
      simp only [scrape_establishment, save_establishment, save_beers, estRowsFor]
      rw [if_neg hne]
      exact filter_upsert db.establishments u _ rfl
    refine ⟨hA, ?_, ?_, rfl⟩
    · simp only [itemsFor, hA, hbeers, List.map_cons, List.map_nil, List.mem_singleton]
      rw [List.filter_append,
        filter_neg_filter (fun b => decide (b.establishment_id = db.nextEstId)) db.beers,
        filter_mkBeerRows db.nextEstId enrich db.nextBeerId (i0 :: irest)]
      simp
    · intro b hb
      rw [hbeers] at hb
      rw [hnext]
      rcases List.mem_append.mp hb with hold | hnew
      · exact Nat.lt_succ_of_lt (hwf b (List.mem_of_mem_filter hold))
      · have hid : b.establishment_id = db.nextEstId :=
          mkBeerRows_estid db.nextEstId enrich db.nextBeerId (i0 :: irest) b hnew
        omega

/-! ### C2: replace-on-rescrape -/

/-- The establishment row stored before the C2 re-scrape. -/
def estOld : EstRow := ⟨1, "Old Name", some "u", some "", 0⟩

/-- A beer row of the old scrape (its ABV is unknown, so its stored
value score is the guard value 0). -/
def beerOld : BeerRow := ⟨1, 1, "X", some 12, none, some 6, 0, "", none, none, none⟩

/-- Database holding one establishment with one beer. -/
def dbOne : DBState := ⟨[estOld], [beerOld], 2, 2⟩

/-- A fresh menu item found by the re-scrape. -/
def itemZ : MenuItem := ⟨"Z", some 12, none, some 6, "", none⟩

/-- C2 counterexample: after re-scraping URL `u`, the previously stored
item row is NOT deleted from the beers table — `INSERT OR REPLACE` gives
the establishment a fresh AUTOINCREMENT id, so the `DELETE … WHERE
establishment_id = ?` of line 371 targets the new id and removes
nothing; the old row merely becomes orphaned (no longer joined to the
URL). -/
theorem C2_counterexample :
    beerOld ∈ itemsFor dbOne "u" ∧
    beerOld ∈ (scrape_establishment dbOne "u" none none ([itemZ], ⟨"New", "", ""⟩)
      (fun _ => none) 5).2.2.beers ∧
    beerOld ∉ itemsFor (scrape_establishment dbOne "u" none none ([itemZ], ⟨"New", "", ""⟩)
      (fun _ => none) 5).2.2 "u" := by
  decide

/-- C2 (amended): on every scrape of a URL the establishment row is
replaced by a fresh row with a new id and the new timestamp, so the item
set observed for that URL (the join all queries use) becomes exactly the
new scrape's items — count 0 included, when the scrape finds none — but
the previously stored item rows are not deleted: they remain in the
beers table orphaned under the replaced establishment id (the delete
targets the fresh id, and is skipped entirely on an empty scrape). -/
theorem C2_rescrape_replaces_join (db : DBState) (hwf : DBwf db) (u : String)
    (items : List MenuItem) (info : EstInfo) (n l : Option String)
    (enrich : MenuItem → Option BAData) (now : Nat) :
    estRowsFor (scrape_establishment db u n l (items, info) enrich now).2.2 u =
      [⟨db.nextEstId, pyOrS n info.name, some u, some (pyOrS l info.location), now⟩] ∧
    itemsFor (scrape_establishment db u n l (items, info) enrich now).2.2 u =
      (if items.isEmpty then [] else mkBeerRows db.nextEstId enrich db.nextBeerId items) ∧
    (itemsFor (scrape_establishment db u n l (items, info) enrich now).2.2 u).length =
      items.length ∧
    (∀ b ∈ db.beers, b.establishment_id ≠ db.nextEstId →
      b ∈ (scrape_establishment db u n l (items, info) enrich now).2.2.beers) := by
  obtain ⟨hA, hB, hwf', hC⟩ := scrape_state_spec db hwf u items info n l enrich now
  refine ⟨hA, hB, ?_, ?_⟩
  · rw [hB]
    rcases items with _ | ⟨i0, irest⟩
    · rfl
    · simpa using mkBeerRows_length db.nextEstId enrich db.nextBeerId (i0 :: irest)
  · intro b hb hbne
    rcases items with _ | ⟨i0, irest⟩
    · have hbeers : (scrape_establishment db u n l ([], info) enrich now).2.2.beers =
          db.beers := by
        simp [scrape_establishment, save_establishment]
      rw [hbeers]
      exact hb
    · have hbeers : (scrape_establishment db u n l (i0 :: irest, info) enrich now).2.2.beers =
          (db.beers.filter fun b => !decide (b.establishment_id = db.nextEstId)) ++
            mkBeerRows db.nextEstId enrich db.nextBeerId (i0 :: irest) := by
        simp [scrape_establishment, save_establishment, save_beers]
      rw [hbeers]
      refine List.mem_append_left _ (List.mem_filter.mpr ⟨hb, ?_⟩)
      simp [hbne]

/-- The concrete one-item database is well-formed. -/
theorem dbOne_wf : DBwf dbOne := by
  intro b hb
  rcases List.mem_singleton.mp hb with rfl
  decide

/-- Witness for C2: the amended theorem applied to the concrete one-item
database with an empty re-scrape — the joined item count drops to 0 and
the establishment row carries the new timestamp. -/
theorem C2_rescrape_replaces_join_witness :
    estRowsFor (scrape_establishment dbOne "u" none none ([], ⟨"New", "", ""⟩)
        (fun _ => none) 5).2.2 "u" =
      [⟨2, "New", some "u", some "", 5⟩] ∧
    (itemsFor (scrape_establishment dbOne "u" none none ([], ⟨"New", "", ""⟩)
        (fun _ => none) 5).2.2 "u").length = 0 := by
  obtain ⟨hA, _, hL, _⟩ := C2_rescrape_replaces_join dbOne dbOne_wf "u" []
    ⟨"New", "", ""⟩ none none (fun _ => none) 5
  exact ⟨hA, hL⟩

/-! ### C9: reconciliation idempotence -/

/-- C9: scraping the same URL twice with identical item lists returns
the same persisted count both times, stores the same number of joined
items after each pass, and leaves exactly one establishment row for the
URL. -/
theorem C9_reconcile_idempotent (db : DBState) (hwf : DBwf db) (u : String)
    (items : List MenuItem) (info1 info2 : EstInfo) (n1 l1 n2 l2 : Option String)
    (enrich : MenuItem → Option BAData) (t1 t2 : Nat) :
    (scrape_establishment db u n1 l1 (items, info1) enrich t1).1 =
      (scrape_establishment (scrape_establishment db u n1 l1 (items, info1) enrich t1).2.2
        u n2 l2 (items, info2) enrich t2).1 ∧
    (itemsFor (scrape_establishment db u n1 l1 (items, info1) enrich t1).2.2 u).length =
      items.length ∧
    (itemsFor (scrape_establishment (scrape_establishment db u n1 l1 (items, info1) enrich t1).2.2
        u n2 l2 (items, info2) enrich t2).2.2 u).length = items.length ∧
    (estRowsFor (scrape_establishment (scrape_establishment db u n1 l1 (items, info1) enrich t1).2.2
        u n2 l2 (items, info2) enrich t2).2.2 u).length = 1 := by
  obtain ⟨hA1, hB1, hwf1, hC1⟩ := scrape_state_spec db hwf u items info1 n1 l1 enrich t1
  obtain ⟨hA2, hB2, hwf2, hC2⟩ := scrape_state_spec
    (scrape_establishment db u n1 l1 (items, info1) enrich t1).2.2 hwf1 u items info2
    n2 l2 enrich t2
  refine ⟨by rw [hC1, hC2], ?_, ?_, ?_⟩
  · rw [hB1]
    rcases items with _ | ⟨i0, irest⟩
    · rfl
    · simpa using mkBeerRows_length db.nextEstId enrich db.nextBeerId (i0 :: irest)
  · rw [hB2]
    rcases items with _ | ⟨i0, irest⟩
    · rfl
    · simpa using mkBeerRows_length _ enrich _ (i0 :: irest)
  · rw [hA2]
    rfl

/-- Witness for C9: the theorem applied to the concrete one-item
database scraped twice with the same single-item list. -/
theorem C9_reconcile_idempotent_witness :
    (itemsFor (scrape_establishment (scrape_establishment dbOne "u" none none
        ([itemZ], ⟨"A", "", ""⟩) (fun _ => none) 5).2.2
        "u" none none ([itemZ], ⟨"B", "", ""⟩) (fun _ => none) 6).2.2 "u").length = 1 ∧
    (estRowsFor (scrape_establishment (scrape_establishment dbOne "u" none none
        ([itemZ], ⟨"A", "", ""⟩) (fun _ => none) 5).2.2
        "u" none none ([itemZ], ⟨"B", "", ""⟩) (fun _ => none) 6).2.2 "u").length = 1 := by
  obtain ⟨_, _, hL2, hE⟩ := C9_reconcile_idempotent dbOne dbOne_wf "u" [itemZ]
    ⟨"A", "", ""⟩ ⟨"B", "", ""⟩ none none none none (fun _ => none) 5 6
  exact ⟨hL2, hE⟩
